import Mathlib

/-!
# Verification of the mail stress-test core

Shallow embedding of the concurrent load-generation engine and the
search-strategy benchmark of the `mail_stress_test` repository
(`benchmark/stress-test.go` and `benchmark/search_benchmark.go`),
together with proofs of the specified properties.

Durations are modelled as `Int` (nanoseconds, Go's `time.Duration` is an
`int64`); counters are modelled as `Int` (`int64` / `int`); the two
`float64` fields (`RequestsPerSecond`, `ErrorRate`) and the success-rate
comparison of the comparison report are modelled as `ℚ`.
-/

namespace MailStress

/-- `time.Hour` in nanoseconds: the sentinel used to initialise every
min-duration field in the source. -/
def hourNs : Int := 3600000000000

/-! ## Percentile computation (`search_benchmark.go`, `calculatePercentile`)

The Go source sorts the sample with an in-place exchange sort:

```
for i := 0; i < len(sorted); i++ {
  for j := i + 1; j < len(sorted); j++ {
    if sorted[i] > sorted[j] { sorted[i], sorted[j] = sorted[j], sorted[i] }
  }
}
```

The inner loop at position `i` is embedded as `selPass`: it carries the
current value of `sorted[i]` through the suffix, swapping it with each
strictly smaller element it meets, and returns the final value of
`sorted[i]` together with the rewritten suffix. The outer loop is
`selSortAux`, run with fuel `l.length` (each pass leaves the suffix length
unchanged, so this fuel drives all `len(sorted)` iterations, the last of
which has an empty suffix and does nothing, exactly like the Go loop). -/

def selPass : Int → List Int → Int × List Int
  | x, [] => (x, [])
  | x, y :: ys =>
    if x > y then
      ((selPass y ys).1, x :: (selPass y ys).2)
    else
      ((selPass x ys).1, y :: (selPass x ys).2)

def selSortAux : Nat → List Int → List Int
  | 0, _ => []
  | _, [] => []
  | n + 1, x :: xs => (selPass x xs).1 :: selSortAux n (selPass x xs).2

/-- The exchange sort of `calculatePercentile`, embedded over lists. -/
def selSort (l : List Int) : List Int := selSortAux l.length l

/-- `calculatePercentile(durations, percentile)` from `search_benchmark.go`:
empty sample returns 0; otherwise sort ascending, take index
`len * percentile / 100`, clamped to `len - 1`. -/
def calculatePercentile (durations : List Int) (percentile : Nat) : Int :=
  if durations.length = 0 then 0
  else
    (selSort durations).getD
      (if durations.length * percentile / 100 ≥ durations.length then
        durations.length - 1
      else durations.length * percentile / 100) 0

/-! ## The load engine (`stress-test.go`)

Worker iterations are modelled as a list of `Event`s, each recording the
selected operation kind, the measured duration and whether the gateway
call errored. The counter fields (`TotalRequests`, `SuccessRequests`,
`FailedRequests`, per-operation `Count`/`Errors`, and the running
duration total) are updated with `atomic.AddInt64` in the source; atomic
additions are linearizable and commutative, so after `wg.Wait()` their
final values equal the sums of all per-event contributions, which is
exactly what the sequential fold below computes. The min/max fields are
updated with a *plain* read-compare-write in the source; the fold models
the uncontended (single-worker) execution of those lines, and the racy
interleaved execution is modelled separately below (`RaceStep`). -/

inductive OpKind where
  | create
  | listOp
  | search
deriving DecidableEq, Repr

structure OperationStats where
  Count : Int
  AvgDuration : Int
  MinDuration : Int
  MaxDuration : Int
  Errors : Int
deriving DecidableEq, Repr

structure Event where
  op : OpKind
  duration : Int
  isError : Bool
deriving DecidableEq, Repr

/-- Mutable state shared by the workers: the counter/min/max fields of
`StressTestResult` plus the `totalDuration` accumulator local to `Run`. -/
structure RunState where
  TotalRequests : Int
  SuccessRequests : Int
  FailedRequests : Int
  MinResponseTime : Int
  MaxResponseTime : Int
  opStats : OpKind → OperationStats
  totalDuration : Int

/-- `updateOperationStats` from `stress-test.go`: increment count and the
running duration total, count errors, and tighten min/max. -/
def updateOperationStats (stats : OperationStats) (duration : Int)
    (isError : Bool) : OperationStats :=
  { Count := stats.Count + 1
    AvgDuration := stats.AvgDuration + duration
    Errors := if isError then stats.Errors + 1 else stats.Errors
    MinDuration := if duration < stats.MinDuration then duration else stats.MinDuration
    MaxDuration := if duration > stats.MaxDuration then duration else stats.MaxDuration }

/-- One iteration of the `worker` loop body after the gateway call
returned (`stress-test.go` lines 119–136). -/
def workerStep (st : RunState) (e : Event) : RunState :=
  let st1 := { st with
    totalDuration := st.totalDuration + e.duration
    TotalRequests := st.TotalRequests + 1 }
  let st2 :=
    if e.isError then
      { st1 with
        FailedRequests := st1.FailedRequests + 1
        opStats := fun o =>
          if o = e.op then updateOperationStats (st1.opStats e.op) e.duration true
          else st1.opStats o }
    else
      { st1 with
        SuccessRequests := st1.SuccessRequests + 1
        opStats := fun o =>
          if o = e.op then updateOperationStats (st1.opStats e.op) e.duration false
          else st1.opStats o }
  let st3 :=
    if e.duration < st2.MinResponseTime then
      { st2 with MinResponseTime := e.duration } else st2
  if e.duration > st3.MaxResponseTime then
    { st3 with MaxResponseTime := e.duration } else st3

/-- The initial result of `Run`: min fields hold the `time.Hour`
sentinel, everything else is the zero value. -/
def initRunState : RunState :=
  { TotalRequests := 0, SuccessRequests := 0, FailedRequests := 0
    MinResponseTime := hourNs, MaxResponseTime := 0
    opStats := fun _ =>
      { Count := 0, AvgDuration := 0, MinDuration := hourNs
        MaxDuration := 0, Errors := 0 }
    totalDuration := 0 }

/-- The returned `StressTestResult` after the final-stats block of `Run`.
`RequestsPerSecond` and `ErrorRate` are `float64` in the source, modelled
exactly as `ℚ`. -/
structure StressTestResult where
  TotalRequests : Int
  SuccessRequests : Int
  FailedRequests : Int
  TotalDuration : Int
  AvgResponseTime : Int
  MinResponseTime : Int
  MaxResponseTime : Int
  RequestsPerSecond : ℚ
  ErrorRate : ℚ
  opStats : OpKind → OperationStats

/-- `Run` from `stress-test.go`: fold the workers' events over the shared
state, then compute the derived aggregates, guarded by
`TotalRequests > 0` (resp. `stats.Count > 0`). `wallNs` is
`time.Since(startTime)`. Go's `int64` division truncates toward zero,
which is `Int.tdiv`. -/
def Run (events : List Event) (wallNs : Int) : StressTestResult :=
  let st := events.foldl workerStep initRunState
  { TotalRequests := st.TotalRequests
    SuccessRequests := st.SuccessRequests
    FailedRequests := st.FailedRequests
    TotalDuration := wallNs
    AvgResponseTime :=
      if st.TotalRequests > 0 then Int.tdiv st.totalDuration st.TotalRequests else 0
    MinResponseTime := st.MinResponseTime
    MaxResponseTime := st.MaxResponseTime
    RequestsPerSecond :=
      if st.TotalRequests > 0 then
        (st.TotalRequests : ℚ) / ((wallNs : ℚ) / 1000000000) else 0
    ErrorRate :=
      if st.TotalRequests > 0 then
        (st.FailedRequests : ℚ) / (st.TotalRequests : ℚ) * 100 else 0
    opStats := fun o =>
      let s := st.opStats o
      if s.Count > 0 then { s with AvgDuration := Int.tdiv s.AvgDuration s.Count }
      else s }

/-! ## Weighted operation selection and construction
(`stress-test.go`, `selectOperation` and `NewStressTest`) -/

/-- The `Operations` weight configuration (`config.go`); Go `int`s. -/
structure OperationWeights where
  CreateMailWeight : Int
  ListMailWeight : Int
  SearchWeight : Int
deriving DecidableEq, Repr

def totalWeight (w : OperationWeights) : Int :=
  w.CreateMailWeight + w.ListMailWeight + w.SearchWeight

/-- The branch structure of `selectOperation` applied to the value `r`
returned by `rand.Intn(total)`. -/
def selectOperation (w : OperationWeights) (r : Int) : String :=
  if r < w.CreateMailWeight then "create"
  else if r < w.CreateMailWeight + w.ListMailWeight then "list"
  else "search"

/-- `selectOperation` including the `rand.Intn(total)` call: `rand.Intn`
panics when its argument is not positive (modelled as `none`); otherwise
it returns some `r` with `0 ≤ r < total` and the branches run. -/
def selectOperationChecked (w : OperationWeights) (r : Int) : Option String :=
  if totalWeight w ≤ 0 then none else some (selectOperation w r)

/-- The part of the configuration consumed by construction and
selection. -/
structure Config where
  operationWeights : OperationWeights
deriving DecidableEq, Repr

structure StressTest where
  config : Config
deriving DecidableEq, Repr

/-- `NewStressTest` from `stress-test.go`: it only stores its arguments;
there is no validation and no error return. -/
def NewStressTest (cfg : Config) : StressTest :=
  { config := cfg }

/-- A configuration whose three operation weights are all zero. -/
def zeroWeightConfig : Config :=
  { operationWeights := { CreateMailWeight := 0, ListMailWeight := 0, SearchWeight := 0 } }

/-! ## The unsynchronized min update as an interleaved program
(`stress-test.go` lines 130–133 and 241–243)

`if duration < result.MinResponseTime { result.MinResponseTime = duration }`
is a read (of the shared field) followed by a conditional write, with no
mutex and no compare-and-swap. Each worker `w` therefore executes the
two-step program `[read w, write w]`; `runRace` executes an arbitrary
interleaving of those steps over the shared field. -/

inductive RaceStep where
  | read (w : Fin 2)
  | write (w : Fin 2)
deriving DecidableEq, Repr

def raceStepWorker : RaceStep → Fin 2
  | .read w => w
  | .write w => w

structure RaceState where
  sharedMin : Int
  snap : Fin 2 → Option Int

/-- One step: `read w` loads the shared min into worker `w`'s local
snapshot (the evaluation of `result.MinResponseTime` in the comparison);
`write w` performs the conditional store, comparing worker `w`'s observed
duration `d w` against its earlier snapshot. -/
def raceStepFn (d : Fin 2 → Int) (s : RaceState) : RaceStep → RaceState
  | .read w => { s with snap := fun v => if v = w then some s.sharedMin else s.snap v }
  | .write w =>
    match s.snap w with
    | none => s
    | some t => if d w < t then { s with sharedMin := d w } else s

/-- Final shared min after an interleaving `sched`, starting from the
`time.Hour` sentinel. -/
def runRace (d : Fin 2 → Int) (sched : List RaceStep) : Int :=
  (sched.foldl (raceStepFn d) { sharedMin := hourNs, snap := fun _ => none }).sharedMin

/-- Two workers observing durations 5 ns and 3 ns. -/
def raceDurations : Fin 2 → Int := fun w => if w = 0 then 5 else 3

/-- The interleaving: both workers read the sentinel, then worker 1
writes its 3 ns, then worker 0 overwrites with its 5 ns. -/
def raceSched : List RaceStep :=
  [.read 0, .read 1, .write 1, .write 0]

/-! ## The search-strategy benchmark (`search_benchmark.go`)

A strategy is modelled by its name, description, whether `SetupDatabase`
errors, and the outcome of each `SearchMails` call of the iteration loop:
`none` for an error, `some (duration, resultCount)` for a success.
`SetupDuration` is wall-clock-only and not modelled. -/

structure SearchBenchmarkResult where
  StrategyName : String
  Description : String
  AvgDuration : Int
  MinDuration : Int
  MaxDuration : Int
  P50Duration : Int
  P95Duration : Int
  P99Duration : Int
  TotalQueries : Int
  SuccessQueries : Int
  FailedQueries : Int
  TotalResults : Int
  AvgResults : ℚ
deriving DecidableEq, Repr

structure StrategyModel where
  name : String
  description : String
  setupFails : Bool
  queries : List (Option (Int × Int))
deriving DecidableEq, Repr

/-- One iteration of the `benchmarkStrategy` loop: count the query, on
error count the failure and keep no duration; on success count it, add
the result rows, append the duration to the sample, and tighten
min/max. -/
def benchIter (acc : SearchBenchmarkResult × List Int) (q : Option (Int × Int)) :
    SearchBenchmarkResult × List Int :=
  let r0 := { acc.1 with TotalQueries := acc.1.TotalQueries + 1 }
  match q with
  | none => ({ r0 with FailedQueries := r0.FailedQueries + 1 }, acc.2)
  | some (duration, numResults) =>
    let r1 := { r0 with
      SuccessQueries := r0.SuccessQueries + 1
      TotalResults := r0.TotalResults + numResults }
    let r2 :=
      if duration < r1.MinDuration then { r1 with MinDuration := duration } else r1
    let r3 :=
      if duration > r2.MaxDuration then { r2 with MaxDuration := duration } else r2
    (r3, acc.2 ++ [duration])

/-- `benchmarkStrategy` from `search_benchmark.go`: it returns an error
(`none`) exactly when `SetupDatabase` errors; otherwise it runs the
iteration loop, then fills in average and percentiles under their
`> 0` guards. -/
def benchmarkStrategy (s : StrategyModel) : Option SearchBenchmarkResult :=
  if s.setupFails then none
  else
    let init : SearchBenchmarkResult :=
      { StrategyName := s.name, Description := s.description
        AvgDuration := 0, MinDuration := hourNs, MaxDuration := 0
        P50Duration := 0, P95Duration := 0, P99Duration := 0
        TotalQueries := 0, SuccessQueries := 0, FailedQueries := 0
        TotalResults := 0, AvgResults := 0 }
    let acc := s.queries.foldl benchIter (init, [])
    let r := acc.1
    let durations := acc.2
    let r :=
      if r.SuccessQueries > 0 then
        { r with
          AvgDuration := Int.tdiv (durations.foldl (· + ·) 0) r.SuccessQueries
          AvgResults := (r.TotalResults : ℚ) / (r.SuccessQueries : ℚ) }
      else r
    let r :=
      if durations.length > 0 then
        { r with
          P50Duration := calculatePercentile durations 50
          P95Duration := calculatePercentile durations 95
          P99Duration := calculatePercentile durations 99 }
      else r
    some r

/-- `Run` from `search_benchmark.go`: iterate the configured strategies
in order; a strategy whose `benchmarkStrategy` errors is skipped
(`continue`), the others insert their entry keyed by name. The Go map is
modelled as the association list of inserted entries in iteration
order. -/
def SearchBenchmarkRun (strategies : List StrategyModel) :
    List (String × SearchBenchmarkResult) :=
  strategies.foldl
    (fun acc s =>
      match benchmarkStrategy s with
      | none => acc
      | some r => acc ++ [(s.name, r)]) []

/-- Three configured strategies; the middle one's setup always errors. -/
def threeStrategiesOneBad : List StrategyModel :=
  [{ name := "strategyA", description := "a", setupFails := false
     queries := [some (10, 2), none, some (30, 4)] },
   { name := "strategyB", description := "b", setupFails := true
     queries := [some (10, 2)] },
   { name := "strategyC", description := "c", setupFails := false
     queries := [some (20, 1)] }]

/-! ## Cross-strategy ranking (`search_benchmark.go`,
`GenerateComparisonReport`)

The report's "find best performers" loop is `for name, result := range
results` over the Go map — an order the language leaves unspecified and
randomizes. The fold below takes the iteration order as an explicit
entry list. -/

structure RankState where
  fastestAvg : String
  fastestP99 : String
  mostReliable : String
  minAvg : Int
  minP99 : Int
  maxSuccess : ℚ
deriving DecidableEq, Repr

/-- The loop body of `GenerateComparisonReport`: entries with no
successful query are ignored; a strictly smaller average or p99, or a
strictly larger success rate, replaces the current best. -/
def rankStep (st : RankState) (e : String × SearchBenchmarkResult) : RankState :=
  if e.2.SuccessQueries > 0 then
    let successRate : ℚ := (e.2.SuccessQueries : ℚ) / (e.2.TotalQueries : ℚ)
    let st1 :=
      if e.2.AvgDuration < st.minAvg then
        { st with minAvg := e.2.AvgDuration, fastestAvg := e.1 } else st
    let st2 :=
      if e.2.P99Duration < st1.minP99 then
        { st1 with minP99 := e.2.P99Duration, fastestP99 := e.1 } else st1
    if successRate > st2.maxSuccess then
      { st2 with maxSuccess := successRate, mostReliable := e.1 } else st2
  else st

def initRankState : RankState :=
  { fastestAvg := "", fastestP99 := "", mostReliable := ""
    minAvg := hourNs, minP99 := hourNs, maxSuccess := 0 }

def generateComparisonRanking (entries : List (String × SearchBenchmarkResult)) :
    RankState :=
  entries.foldl rankStep initRankState

/-- A per-strategy result with one successful query out of one, average
and p99 both 10 ns — used to exhibit a tie. -/
def tieResult : SearchBenchmarkResult :=
  { StrategyName := "", Description := ""
    AvgDuration := 10, MinDuration := 10, MaxDuration := 10
    P50Duration := 10, P95Duration := 10, P99Duration := 10
    TotalQueries := 1, SuccessQueries := 1, FailedQueries := 0
    TotalResults := 1, AvgResults := 1 }

/-- The same two map entries in the two orders a Go map range may
produce. -/
def tieEntriesAB : List (String × SearchBenchmarkResult) :=
  [("strategyA", tieResult), ("strategyB", tieResult)]

def tieEntriesBA : List (String × SearchBenchmarkResult) :=
  [("strategyB", tieResult), ("strategyA", tieResult)]

/-- A map entry whose result has zero successful queries. -/
def zeroSuccessEntry : String × SearchBenchmarkResult :=
  ("strategyZ", { tieResult with SuccessQueries := 0, FailedQueries := 1 })

/-! ## Proofs about the exchange sort -/

theorem selPass_snd_length (x : Int) (l : List Int) :
    (selPass x l).2.length = l.length := by
  induction l generalizing x with
  | nil => rfl
  | cons y ys ih =>
    by_cases h : x > y <;> simp [selPass, h, ih]

theorem selPass_perm (x : Int) (l : List Int) :
    ((selPass x l).1 :: (selPass x l).2).Perm (x :: l) := by
  induction l generalizing x with
  | nil => exact List.Perm.refl _
  | cons y ys ih =>
    by_cases h : x > y
    · simp only [selPass, h, if_true]
      exact (List.Perm.swap x (selPass y ys).1 (selPass y ys).2).trans
        ((ih y).cons x)
    · simp only [selPass, h, if_false]
      exact ((List.Perm.swap y (selPass x ys).1 (selPass x ys).2).trans
        ((ih x).cons y)).trans (List.Perm.swap x y ys)

theorem selPass_min (x : Int) (l : List Int) :
    (selPass x l).1 ≤ x ∧ ∀ z ∈ (selPass x l).2, (selPass x l).1 ≤ z := by
  induction l generalizing x with
  | nil => exact ⟨le_refl x, by simp [selPass]⟩
  | cons y ys ih =>
    by_cases h : x > y
    · simp only [selPass, h, if_true]
      obtain ⟨h1, h2⟩ := ih y
      refine ⟨le_trans h1 (le_of_lt h), ?_⟩
      intro z hz
      rcases List.mem_cons.mp hz with hz | hz
      · exact hz ▸ le_trans h1 (le_of_lt h)
      · exact h2 z hz
    · simp only [selPass, h, if_false]
      obtain ⟨h1, h2⟩ := ih x
      refine ⟨h1, ?_⟩
      intro z hz
      rcases List.mem_cons.mp hz with hz | hz
      · exact hz ▸ le_trans h1 (le_of_not_lt h)
      · exact h2 z hz

theorem selSortAux_perm (n : Nat) (l : List Int) (h : l.length ≤ n) :
    (selSortAux n l).Perm l := by
  induction n generalizing l with
  | zero =>
    have : l = [] := List.eq_nil_of_length_eq_zero (Nat.le_zero.mp h)
    subst this; exact List.Perm.refl _
  | succ n ih =>
    match l with
    | [] => exact List.Perm.refl _
    | x :: xs =>
      have hlen : (selPass x xs).2.length ≤ n := by
        rw [selPass_snd_length]
        simp only [List.length_cons] at h
        omega
      exact ((ih _ hlen).cons _).trans (selPass_perm x xs)

theorem selSortAux_sorted (n : Nat) (l : List Int) (h : l.length ≤ n) :
    (selSortAux n l).Sorted (· ≤ ·) := by
  induction n generalizing l with
  | zero =>
    have : l = [] := List.eq_nil_of_length_eq_zero (Nat.le_zero.mp h)
    subst this; simp [selSortAux]
  | succ n ih =>
    match l with
    | [] => simp [selSortAux]
    | x :: xs =>
      have hlen : (selPass x xs).2.length ≤ n := by
        rw [selPass_snd_length]
        simp only [List.length_cons] at h
        omega
      rw [selSortAux, List.sorted_cons]
      refine ⟨?_, ih _ hlen⟩
      intro b hb
      have hbmem : b ∈ (selPass x xs).2 :=
        ((selSortAux_perm n _ hlen).mem_iff).mp hb
      exact (selPass_min x xs).2 b hbmem

theorem selSort_perm (l : List Int) : (selSort l).Perm l :=
  selSortAux_perm l.length l (le_refl _)

theorem selSort_sorted (l : List Int) : (selSort l).Sorted (· ≤ ·) :=
  selSortAux_sorted l.length l (le_refl _)

theorem calculatePercentile_eq_getD (l : List Int) (p : Nat) (h : 0 < l.length) :
    calculatePercentile l p
      = (selSort l).getD (min (l.length * p / 100) (l.length - 1)) 0 := by
  unfold calculatePercentile
  rw [if_neg (Nat.pos_iff_ne_zero.mp h)]
  congr 1
  generalize l.length * p / 100 = k
  split <;> omega

theorem calculatePercentile_singleton (x : Int) (p : Nat) (hp : p ≤ 99) :
    calculatePercentile [x] p = x := by
  rw [calculatePercentile_eq_getD [x] p (by simp)]
  have hsel : selSort [x] = [x] := rfl
  have hidx : ([x] : List Int).length * p / 100 = 0 := by
    simp only [List.length_singleton]
    omega
  rw [hsel, hidx]
  rfl

theorem sorted_getD_mono {s : List Int} (hs : s.Sorted (· ≤ ·)) {i j : Nat}
    (hij : i ≤ j) (hj : j < s.length) : s.getD i 0 ≤ s.getD j 0 := by
  have hi : i < s.length := lt_of_le_of_lt hij hj
  rw [List.getD_eq_getElem s 0 hi, List.getD_eq_getElem s 0 hj]
  have hfin : (⟨i, hi⟩ : Fin s.length) ≤ ⟨j, hj⟩ := Fin.mk_le_mk.mpr hij
  have := hs.rel_get_of_le hfin
  simpa [List.get_eq_getElem] using this

/-! ## Claim theorems: percentiles -/

/-- **C4.** For every duration sample and percentile `p`: an empty sample
yields 0 with no out-of-bounds indexing; a non-empty sample yields the
element of the ascending-sorted sample (here `s`, any sorted permutation
of the sample) at index `min (count * p / 100) (count - 1)` — the
nearest-rank method, not interpolated — and that index is in bounds. -/
theorem calculatePercentile_nearest_rank (l s : List Int) (p : Nat)
    (hperm : l.Perm s) (hsort : s.Sorted (· ≤ ·)) :
    (l = [] → calculatePercentile l p = 0) ∧
    (l ≠ [] →
      min (l.length * p / 100) (l.length - 1) < l.length ∧
      calculatePercentile l p
        = s.getD (min (l.length * p / 100) (l.length - 1)) 0) := by
  constructor
  · intro h
    subst h
    rfl
  · intro h
    have hlen : 0 < l.length := List.length_pos.mpr h
    have hsel : selSort l = s :=
      List.eq_of_perm_of_sorted ((selSort_perm l).trans hperm)
        (selSort_sorted l) hsort
    constructor
    · generalize l.length * p / 100 = k
      omega
    · rw [calculatePercentile_eq_getD l p hlen, hsel]

/-- Witness for C4: the sample `[3, 1, 2]` at `p = 50` sorts to
`[1, 2, 3]` and the percentile is the in-bounds index-1 element. -/
theorem calculatePercentile_nearest_rank_witness :
    ((([3, 1, 2] : List Int) = []) → calculatePercentile [3, 1, 2] 50 = 0) ∧
    (([3, 1, 2] : List Int) ≠ [] →
      min (([3, 1, 2] : List Int).length * 50 / 100)
          (([3, 1, 2] : List Int).length - 1) < ([3, 1, 2] : List Int).length ∧
      calculatePercentile [3, 1, 2] 50
        = ([1, 2, 3] : List Int).getD
            (min (([3, 1, 2] : List Int).length * 50 / 100)
              (([3, 1, 2] : List Int).length - 1)) 0) :=
  calculatePercentile_nearest_rank [3, 1, 2] [1, 2, 3] 50 (by decide) (by decide)

/-- **C5.** For every non-empty duration sample the computed percentiles
satisfy `p50 ≤ p95 ≤ p99`, and on a sample of size exactly 1 all three
percentiles equal the single sample's duration. -/
theorem percentiles_ordered (l : List Int) (h : l ≠ []) :
    calculatePercentile l 50 ≤ calculatePercentile l 95 ∧
    calculatePercentile l 95 ≤ calculatePercentile l 99 ∧
    ∀ x : Int, l = [x] →
      calculatePercentile l 50 = x ∧ calculatePercentile l 95 = x ∧
        calculatePercentile l 99 = x := by
  have hlen : 0 < l.length := List.length_pos.mpr h
  have hs := selSort_sorted l
  have hlength : (selSort l).length = l.length := (selSort_perm l).length_eq
  have key : ∀ p q : Nat, p ≤ q →
      calculatePercentile l p ≤ calculatePercentile l q := by
    intro p q hpq
    rw [calculatePercentile_eq_getD l p hlen, calculatePercentile_eq_getD l q hlen]
    have hidx : l.length * p / 100 ≤ l.length * q / 100 :=
      Nat.div_le_div_right (Nat.mul_le_mul (Nat.le_refl _) hpq)
    apply sorted_getD_mono hs (min_le_min hidx (le_refl _))
    rw [hlength]
    generalize l.length * q / 100 = k
    omega
  refine ⟨key 50 95 (by norm_num), key 95 99 (by norm_num), ?_⟩
  intro x hx
  subst hx
  exact ⟨calculatePercentile_singleton x 50 (by norm_num),
    calculatePercentile_singleton x 95 (by norm_num),
    calculatePercentile_singleton x 99 (by norm_num)⟩

/-- Witness for C5 at the concrete sample `[7, 4]`. -/
theorem percentiles_ordered_witness :
    calculatePercentile [7, 4] 50 ≤ calculatePercentile [7, 4] 95 ∧
    calculatePercentile [7, 4] 95 ≤ calculatePercentile [7, 4] 99 ∧
    ∀ x : Int, ([7, 4] : List Int) = [x] →
      calculatePercentile [7, 4] 50 = x ∧ calculatePercentile [7, 4] 95 = x ∧
        calculatePercentile [7, 4] 99 = x :=
  percentiles_ordered [7, 4] (by decide)

/-! ## Proofs about the load engine counters -/

theorem workerStep_counts (st : RunState) (e : Event) :
    (workerStep st e).TotalRequests = st.TotalRequests + 1 ∧
    (workerStep st e).SuccessRequests + (workerStep st e).FailedRequests
      = st.SuccessRequests + st.FailedRequests + 1 ∧
    ∀ o : OpKind, ((workerStep st e).opStats o).Count
      = (st.opStats o).Count + if o = e.op then 1 else 0 := by
  unfold workerStep
  by_cases he : e.isError <;>
    simp only [he, if_true, if_false, Bool.false_eq_true, Bool.true_eq_false] <;>
    split <;> split <;>
    refine ⟨rfl, by ring, ?_⟩ <;>
    intro o <;> by_cases ho : o = e.op <;>
    simp [ho, updateOperationStats]

theorem foldl_counts (events : List Event) (st : RunState) :
    ((events.foldl workerStep st).TotalRequests
        = st.TotalRequests + (events.length : Int)) ∧
    ((events.foldl workerStep st).SuccessRequests
        + (events.foldl workerStep st).FailedRequests
        = st.SuccessRequests + st.FailedRequests + (events.length : Int)) ∧
    (((events.foldl workerStep st).opStats .create).Count
        + ((events.foldl workerStep st).opStats .listOp).Count
        + ((events.foldl workerStep st).opStats .search).Count
        = (st.opStats .create).Count + (st.opStats .listOp).Count
          + (st.opStats .search).Count + (events.length : Int)) := by
  induction events generalizing st with
  | nil => simp
  | cons e rest ih =>
    obtain ⟨h1, h2, h3⟩ := ih (workerStep st e)
    obtain ⟨g1, g2, g3⟩ := workerStep_counts st e
    simp only [List.foldl_cons, List.length_cons]
    refine ⟨?_, ?_, ?_⟩
    · rw [h1, g1]; omega
    · rw [h2, g2]; omega
    · rw [h3, g3 OpKind.create, g3 OpKind.listOp, g3 OpKind.search]
      cases e.op <;> simp <;> omega

theorem run_opStats_Count (events : List Event) (wallNs : Int) (o : OpKind) :
    ((Run events wallNs).opStats o).Count
      = ((events.foldl workerStep initRunState).opStats o).Count := by
  unfold Run
  dsimp only
  split <;> rfl

/-- **C2.** At the end of every `Run` (all workers joined, events being
the multiset of all completed worker iterations), the returned result
satisfies `TotalRequests = SuccessRequests + FailedRequests`, and the sum
of the per-operation `Count` over create, list and search equals
`TotalRequests`. -/
theorem run_counter_invariants (events : List Event) (wallNs : Int) :
    (Run events wallNs).TotalRequests
      = (Run events wallNs).SuccessRequests + (Run events wallNs).FailedRequests ∧
    ((Run events wallNs).opStats .create).Count
      + ((Run events wallNs).opStats .listOp).Count
      + ((Run events wallNs).opStats .search).Count
      = (Run events wallNs).TotalRequests := by
  obtain ⟨h1, h2, h3⟩ := foldl_counts events initRunState
  have e1 : (Run events wallNs).TotalRequests
      = (events.foldl workerStep initRunState).TotalRequests := rfl
  have e2 : (Run events wallNs).SuccessRequests
      = (events.foldl workerStep initRunState).SuccessRequests := rfl
  have e3 : (Run events wallNs).FailedRequests
      = (events.foldl workerStep initRunState).FailedRequests := rfl
  rw [e1, e2, e3, run_opStats_Count, run_opStats_Count, run_opStats_Count]
  have z1 : initRunState.TotalRequests = 0 := rfl
  have z2 : initRunState.SuccessRequests = 0 := rfl
  have z3 : initRunState.FailedRequests = 0 := rfl
  have z4 : (initRunState.opStats OpKind.create).Count = 0 := rfl
  have z5 : (initRunState.opStats OpKind.listOp).Count = 0 := rfl
  have z6 : (initRunState.opStats OpKind.search).Count = 0 := rfl
  rw [z1] at h1
  rw [z2, z3] at h2
  rw [z4, z5, z6] at h3
  omega

/-- **C3 counterexample.** A run with zero requests leaves
`MinResponseTime` at the `time.Hour` sentinel (3600000000000 ns), not at
zero as the claim states. -/
theorem run_zero_requests_min_is_sentinel :
    (Run [] 1000000000).TotalRequests = 0 ∧
    (Run [] 1000000000).MinResponseTime = hourNs ∧
    (Run [] 1000000000).MinResponseTime ≠ 0 :=
  ⟨by decide, by decide, by decide⟩

/-- **C3 (amended).** For every run with `TotalRequests = 0`, the average
response time, max response time, requests-per-second and error rate are
zero (their guarded computations are skipped, so no division by zero
occurs), but `MinResponseTime` keeps its initialization sentinel
`time.Hour` instead of zero. -/
theorem run_zero_requests_fields (events : List Event) (wallNs : Int)
    (h : (Run events wallNs).TotalRequests = 0) :
    (Run events wallNs).AvgResponseTime = 0 ∧
    (Run events wallNs).MaxResponseTime = 0 ∧
    (Run events wallNs).RequestsPerSecond = 0 ∧
    (Run events wallNs).ErrorRate = 0 ∧
    (Run events wallNs).MinResponseTime = hourNs := by
  have hTot : (Run events wallNs).TotalRequests
      = (events.foldl workerStep initRunState).TotalRequests := rfl
  have h1 := (foldl_counts events initRunState).1
  have z1 : initRunState.TotalRequests = 0 := rfl
  rw [z1] at h1
  rw [hTot, h1] at h
  have hnil : events = [] := by
    have : events.length = 0 := by omega
    exact List.eq_nil_of_length_eq_zero this
  subst hnil
  norm_num [Run, initRunState]

/-- Witness for (amended) C3: the empty run. -/
theorem run_zero_requests_fields_witness :
    (Run [] 7).AvgResponseTime = 0 ∧
    (Run [] 7).MaxResponseTime = 0 ∧
    (Run [] 7).RequestsPerSecond = 0 ∧
    (Run [] 7).ErrorRate = 0 ∧
    (Run [] 7).MinResponseTime = hourNs :=
  run_zero_requests_fields [] 7 (by decide)

/-! ## Claim theorems: the min-update race -/

/-- **C1.** The conditional min update of `worker` /
`updateOperationStats` is a plain read-compare-write with no mutex and no
compare-and-swap. Under the interleaving in which both workers read the
initial sentinel, then the 3 ns worker writes, then the 5 ns worker
writes, the final recorded min is 5 — the 3 ns sample is lost, so the
final min does *not* equal the minimum over all observed durations.
(`raceSched` is a genuine interleaving: each worker's steps occur in its
program order read-then-write.) -/
theorem min_update_lost_under_race :
    raceSched.filter (fun s => raceStepWorker s == 0)
        = [RaceStep.read 0, RaceStep.write 0] ∧
    raceSched.filter (fun s => raceStepWorker s == 1)
        = [RaceStep.read 1, RaceStep.write 1] ∧
    runRace raceDurations raceSched = 5 ∧
    min (raceDurations 0) (raceDurations 1) = 3 ∧
    runRace raceDurations raceSched ≠ min (raceDurations 0) (raceDurations 1) :=
  ⟨by decide, by decide, by decide, by decide, by decide⟩

/-! ## Claim theorems: weighted selection and construction -/

/-- The weight configuration (create = 0, list = 100, search = 0). -/
def listOnlyWeights : OperationWeights :=
  { CreateMailWeight := 0, ListMailWeight := 100, SearchWeight := 0 }

/-- **C6.** For every weight configuration with non-negative weights and
positive total, and every draw `r` in `[0, totalWeight)`: the branches of
`selectOperation` map the cumulative ranges to create, list, search in
that fixed order; a category with weight zero is never selected; and for
weights (create = 0, list = 100, search = 0) every draw selects "list". -/
theorem selectOperation_ranges (w : OperationWeights) (r : Int)
    (hc : 0 ≤ w.CreateMailWeight) (hl : 0 ≤ w.ListMailWeight)
    (hs : 0 ≤ w.SearchWeight) (h0 : 0 ≤ r) (h1 : r < totalWeight w) :
    (selectOperation w r = "create" ↔ r < w.CreateMailWeight) ∧
    (selectOperation w r = "list" ↔
      (w.CreateMailWeight ≤ r ∧ r < w.CreateMailWeight + w.ListMailWeight)) ∧
    (selectOperation w r = "search" ↔
      w.CreateMailWeight + w.ListMailWeight ≤ r) ∧
    (w.CreateMailWeight = 0 → selectOperation w r ≠ "create") ∧
    (w.ListMailWeight = 0 → selectOperation w r ≠ "list") ∧
    (w.SearchWeight = 0 → selectOperation w r ≠ "search") ∧
    (w = listOnlyWeights → selectOperation w r = "list") := by
  have hCL : ("create" : String) ≠ "list" := by decide
  have hCS : ("create" : String) ≠ "search" := by decide
  have hLS : ("list" : String) ≠ "search" := by decide
  have hW : w = listOnlyWeights ↔
      w.CreateMailWeight = 0 ∧ w.ListMailWeight = 100 ∧ w.SearchWeight = 0 := by
    constructor
    · intro hw; subst hw; exact ⟨rfl, rfl, rfl⟩
    · intro ⟨a, b, c⟩
      cases w
      simp_all [listOnlyWeights]
  unfold totalWeight at h1
  unfold selectOperation
  rw [hW]
  split_ifs with hA hB <;>
    refine ⟨?_, ?_, ?_, ?_, ?_, ?_, ?_⟩ <;>
    simp_all <;> omega

/-- Witness for C6: weights (0, 100, 0) with draw 42 select "list". -/
theorem selectOperation_ranges_witness :
    (selectOperation listOnlyWeights 42 = "create" ↔
      (42 : Int) < listOnlyWeights.CreateMailWeight) ∧
    (selectOperation listOnlyWeights 42 = "list" ↔
      (listOnlyWeights.CreateMailWeight ≤ 42 ∧
        (42 : Int) < listOnlyWeights.CreateMailWeight + listOnlyWeights.ListMailWeight)) ∧
    (selectOperation listOnlyWeights 42 = "search" ↔
      listOnlyWeights.CreateMailWeight + listOnlyWeights.ListMailWeight ≤ 42) ∧
    (listOnlyWeights.CreateMailWeight = 0 →
      selectOperation listOnlyWeights 42 ≠ "create") ∧
    (listOnlyWeights.ListMailWeight = 0 →
      selectOperation listOnlyWeights 42 ≠ "list") ∧
    (listOnlyWeights.SearchWeight = 0 →
      selectOperation listOnlyWeights 42 ≠ "search") ∧
    (listOnlyWeights = listOnlyWeights → selectOperation listOnlyWeights 42 = "list") :=
  selectOperation_ranges listOnlyWeights 42 (by decide) (by decide) (by decide)
    (by decide) (by decide)

/-- **C7 (code evaluation).** The claim says a configuration whose three
weights sum to zero is rejected fatally at construction. In the source,
`NewStressTest` performs no validation at all (it has no error return and
stores its arguments unconditionally), and selection is reached with
`totalWeight = 0`, where `rand.Intn(0)` panics: the failure happens at
selection time, not construction time. -/
theorem zero_weights_accepted_at_construction :
    (∀ cfg : Config, NewStressTest cfg = { config := cfg }) ∧
    totalWeight ((NewStressTest zeroWeightConfig).config.operationWeights) = 0 ∧
    (∀ r : Int, selectOperationChecked
        ((NewStressTest zeroWeightConfig).config.operationWeights) r = none) :=
  ⟨fun _ => rfl, by decide, fun _ => rfl⟩

/-! ## Proofs about the search benchmark runner -/

theorem benchmarkStrategy_none_iff (s : StrategyModel) :
    benchmarkStrategy s = none ↔ s.setupFails = true := by
  unfold benchmarkStrategy
  split <;> simp_all

theorem searchRun_fold_names (strategies : List StrategyModel)
    (acc : List (String × SearchBenchmarkResult)) :
    (strategies.foldl
        (fun acc s => match benchmarkStrategy s with
          | none => acc
          | some r => acc ++ [(s.name, r)]) acc).map Prod.fst
      = acc.map Prod.fst
        ++ (strategies.filter (fun s => !s.setupFails)).map StrategyModel.name := by
  induction strategies generalizing acc with
  | nil => simp
  | cons s rest ih =>
    rw [List.foldl_cons, List.filter_cons]
    cases hb : benchmarkStrategy s with
    | none =>
      have hf : s.setupFails = true := (benchmarkStrategy_none_iff s).mp hb
      simp only [hb]
      rw [ih]
      simp [hf]
    | some r =>
      have hf : ¬ s.setupFails = true := fun hc =>
        by simp [(benchmarkStrategy_none_iff s).mpr hc] at hb
      simp only [hb]
      rw [ih]
      simp [hf]

/-- **C8.** A strategy whose setup errors is skipped — it contributes no
entry to the result map — and every remaining strategy still runs: the
entries of the run are exactly the non-failing strategies, keyed by name
and in configuration order. In particular, with three configured
strategies one of whose setup always errors, the map holds exactly the
two other strategies' entries. -/
theorem searchBenchmark_skips_failed_setup (strategies : List StrategyModel) :
    ((SearchBenchmarkRun strategies).map Prod.fst
      = (strategies.filter (fun s => !s.setupFails)).map StrategyModel.name) ∧
    ((SearchBenchmarkRun threeStrategiesOneBad).map Prod.fst
      = ["strategyA", "strategyC"]) ∧
    (SearchBenchmarkRun threeStrategiesOneBad).length = 2 := by
  refine ⟨?_, by decide, by decide⟩
  exact searchRun_fold_names strategies []

/-! ## Proofs about the comparison-report ranking -/

/-- **C9 (code evaluation).** `GenerateComparisonReport` iterates the Go
result map with `for name, result := range results`, an order the
language leaves unspecified and randomizes per run. With two strategies
whose stats tie, the two possible iteration orders of the same map
entries produce different fastest-average winners: the ranking is not a
function of the map contents, hence not reproducible. -/
theorem ranking_depends_on_iteration_order :
    tieEntriesAB.Perm tieEntriesBA ∧
    (generateComparisonRanking tieEntriesAB).fastestAvg = "strategyA" ∧
    (generateComparisonRanking tieEntriesBA).fastestAvg = "strategyB" ∧
    (generateComparisonRanking tieEntriesAB).fastestAvg
      ≠ (generateComparisonRanking tieEntriesBA).fastestAvg := by
  have hA : (generateComparisonRanking tieEntriesAB).fastestAvg = "strategyA" := by
    norm_num [generateComparisonRanking, rankStep, initRankState, tieEntriesAB,
      tieResult, hourNs]
  have hB : (generateComparisonRanking tieEntriesBA).fastestAvg = "strategyB" := by
    norm_num [generateComparisonRanking, rankStep, initRankState, tieEntriesBA,
      tieResult, hourNs]
  refine ⟨?_, hA, hB, ?_⟩
  · unfold tieEntriesAB tieEntriesBA
    exact List.Perm.swap _ _ []
  · rw [hA, hB]
    decide

theorem rankStep_fields (st : RankState) (e : String × SearchBenchmarkResult) :
    ((rankStep st e).fastestAvg = st.fastestAvg ∨
      ((rankStep st e).fastestAvg = e.1 ∧ 0 < e.2.SuccessQueries)) ∧
    ((rankStep st e).fastestP99 = st.fastestP99 ∨
      ((rankStep st e).fastestP99 = e.1 ∧ 0 < e.2.SuccessQueries)) ∧
    ((rankStep st e).mostReliable = st.mostReliable ∨
      ((rankStep st e).mostReliable = e.1 ∧ 0 < e.2.SuccessQueries)) := by
  unfold rankStep
  dsimp only
  split_ifs <;> simp_all

theorem rankStep_zero_success (st : RankState) (e : String × SearchBenchmarkResult)
    (h : e.2.SuccessQueries = 0) : rankStep st e = st := by
  unfold rankStep
  rw [if_neg (by omega : ¬ e.2.SuccessQueries > 0)]

theorem rankFold_inv (entries : List (String × SearchBenchmarkResult)) (st : RankState) :
    ((entries.foldl rankStep st).fastestAvg = st.fastestAvg ∨
      ∃ r, ((entries.foldl rankStep st).fastestAvg, r) ∈ entries ∧
        0 < r.SuccessQueries) ∧
    ((entries.foldl rankStep st).fastestP99 = st.fastestP99 ∨
      ∃ r, ((entries.foldl rankStep st).fastestP99, r) ∈ entries ∧
        0 < r.SuccessQueries) ∧
    ((entries.foldl rankStep st).mostReliable = st.mostReliable ∨
      ∃ r, ((entries.foldl rankStep st).mostReliable, r) ∈ entries ∧
        0 < r.SuccessQueries) := by
  induction entries generalizing st with
  | nil => exact ⟨Or.inl rfl, Or.inl rfl, Or.inl rfl⟩
  | cons e rest ih =>
    obtain ⟨ia, ip, im⟩ := ih (rankStep st e)
    obtain ⟨sa, sp, sm⟩ := rankStep_fields st e
    rw [List.foldl_cons]
    refine ⟨?_, ?_, ?_⟩
    · rcases ia with ia | ⟨r, hr, hrpos⟩
      · rw [ia]
        rcases sa with sa | ⟨sa, hpos⟩
        · exact Or.inl sa
        · refine Or.inr ⟨e.2, ?_, hpos⟩
          rw [sa]
          simp
      · exact Or.inr ⟨r, List.mem_cons_of_mem _ hr, hrpos⟩
    · rcases ip with ip | ⟨r, hr, hrpos⟩
      · rw [ip]
        rcases sp with sp | ⟨sp, hpos⟩
        · exact Or.inl sp
        · refine Or.inr ⟨e.2, ?_, hpos⟩
          rw [sp]
          simp
      · exact Or.inr ⟨r, List.mem_cons_of_mem _ hr, hrpos⟩
    · rcases im with im | ⟨r, hr, hrpos⟩
      · rw [im]
        rcases sm with sm | ⟨sm, hpos⟩
        · exact Or.inl sm
        · refine Or.inr ⟨e.2, ?_, hpos⟩
          rw [sm]
          simp
      · exact Or.inr ⟨r, List.mem_cons_of_mem _ hr, hrpos⟩

theorem rankFold_all_zero (entries : List (String × SearchBenchmarkResult))
    (st : RankState) (h : ∀ e ∈ entries, e.2.SuccessQueries = 0) :
    entries.foldl rankStep st = st := by
  induction entries generalizing st with
  | nil => rfl
  | cons e rest ih =>
    rw [List.foldl_cons, rankStep_zero_success st e (h e (List.mem_cons_self e rest))]
    exact ih st fun x hx => h x (List.mem_cons_of_mem e hx)

/-- **C10.** In the comparison ranking, a result with zero successful
queries is never chosen for any of the three "best" slots regardless of
its other fields: any chosen non-empty name belongs to an entry with
positive `SuccessQueries`. And if every entry of the result map has zero
successful queries, all three best-strategy names remain the empty
string. -/
theorem ranking_ignores_zero_success (entries : List (String × SearchBenchmarkResult)) :
    (((generateComparisonRanking entries).fastestAvg ≠ "" →
        ∃ r, ((generateComparisonRanking entries).fastestAvg, r) ∈ entries ∧
          0 < r.SuccessQueries) ∧
     ((generateComparisonRanking entries).fastestP99 ≠ "" →
        ∃ r, ((generateComparisonRanking entries).fastestP99, r) ∈ entries ∧
          0 < r.SuccessQueries) ∧
     ((generateComparisonRanking entries).mostReliable ≠ "" →
        ∃ r, ((generateComparisonRanking entries).mostReliable, r) ∈ entries ∧
          0 < r.SuccessQueries)) ∧
    ((∀ e ∈ entries, e.2.SuccessQueries = 0) →
      (generateComparisonRanking entries).fastestAvg = "" ∧
      (generateComparisonRanking entries).fastestP99 = "" ∧
      (generateComparisonRanking entries).mostReliable = "") := by
  unfold generateComparisonRanking
  constructor
  · obtain ⟨ia, ip, im⟩ := rankFold_inv entries initRankState
    refine ⟨fun hne => ?_, fun hne => ?_, fun hne => ?_⟩
    · rcases ia with ia | h
      · exact absurd ia hne
      · exact h
    · rcases ip with ip | h
      · exact absurd ip hne
      · exact h
    · rcases im with im | h
      · exact absurd im hne
      · exact h
  · intro hz
    rw [rankFold_all_zero entries initRankState hz]
    exact ⟨rfl, rfl, rfl⟩

/-- Witness for C10: a single-entry map whose result has zero successful
queries yields empty best-strategy names. -/
theorem ranking_ignores_zero_success_witness :
    (generateComparisonRanking [zeroSuccessEntry]).fastestAvg = "" ∧
    (generateComparisonRanking [zeroSuccessEntry]).fastestP99 = "" ∧
    (generateComparisonRanking [zeroSuccessEntry]).mostReliable = "" :=
  (ranking_ignores_zero_success [zeroSuccessEntry]).2 (by decide)

end MailStress
